import Mathlib

/-!
# Verification of the tiffinder repository's core engine

Shallow embedding of the indexing + matching + collision-safe copy engine of
the `tiffinder` repository (files `Tiffinder.py`, `Tif_finder.py`,
`Tifmpx.py`), together with theorems settling the frozen claims about it.

Modelling conventions:

* A Python `dict` preserving insertion order (the path cache, `self.cache`)
  is an association list `StrMap := List (String × String)` whose keys are
  unique; `lookupFirst` is dict lookup, `writeEntry` is `d[k] = v`
  (update in place keeps the original position, a fresh key is appended).
* The filesystem is likewise a `StrMap` from absolute path to file content
  (`String`).  The model contains regular files only, so `Path.exists`,
  `Path.is_file` and `os.path.exists` all become `hasPath`.
* Python exceptions are modelled with `Except PyErr`; an uncaught exception
  aborts the remaining computation exactly as in Python.
* Paths are strings with `/` as separator; `pathName`, `pathParent`,
  `pathStem`, `pathSuffix` implement `pathlib.PurePath.name / parent /
  stem / suffix` (suffix is nonempty only when the final component has an
  interior dot, exactly CPython's `0 < name.rfind('.') < len(name) - 1`),
  and `pathJoin` implements `joinpath` / `os.path.join` for a relative
  final component, the only way the sources use it.
-/

/-- Python runtime errors that the embedded code can raise:
`fileNotFound` (`FileNotFoundError`, e.g. from `filecmp.cmp` or
`shutil.copy`), `nameError` (`NameError`, an unresolved identifier such as
the un-imported `os` in `Tiffinder.py`), `valueError` (raised by
`TifMpx._cache_by_name`), and `nonterm`, an artefact of the fuelled
while-loop embedding that no theorem below ever reaches. -/
inductive PyErr where
  | fileNotFound
  | nameError
  | valueError
  | nonterm
deriving DecidableEq, Repr

deriving instance DecidableEq for Except

/-- An insertion-ordered string-to-string mapping: the model of both a
Python `dict` (the tif cache) and of the filesystem (path to content). -/
abbrev StrMap := List (String × String)

/-- Dict lookup `d[k]`: the value of the first (and, for a real dict, only)
binding of the key. -/
def lookupFirst : StrMap → String → Option String
  | [], _ => none
  | (k, v) :: t, key => if k = key then some v else lookupFirst t key

/-- Dict assignment `d[k] = v`: update in place if the key is present
(keeping its position, as Python dicts do), otherwise append. -/
def writeEntry : StrMap → String → String → StrMap
  | [], key, val => [(key, val)]
  | (k, v) :: t, key, val =>
      if k = key then (k, val) :: t else (k, v) :: writeEntry t key val

/-- `os.path.exists` / `Path.exists` / `Path.is_file` over the file model
(which holds regular files only). -/
def hasPath (fs : StrMap) (p : String) : Bool :=
  (lookupFirst fs p).isSome

/-! ## Substring containment (Python `needle in haystack`) -/

/-- Boolean test that `n` is a leading segment of `h`. -/
def leadsWith : List Char → List Char → Bool
  | [], _ => true
  | _ :: _, [] => false
  | a :: as, b :: bs => a == b && leadsWith as bs

/-- Python's `needle in haystack` for strings: substring containment,
checked at every start position. -/
def containsSub (hay needle : List Char) : Bool :=
  leadsWith needle hay ||
    match hay with
    | [] => false
    | _ :: t => containsSub t needle

/-! ## Python `str.split(" ", maxsplit)` and `" ".join` -/

/-- Split a character list at the first occurrence of `sep`; `none` when
`sep` does not occur. -/
def splitOnceAt (sep : Char) : List Char → Option (List Char × List Char)
  | [] => none
  | c :: t =>
      if c = sep then some ([], t)
      else
        match splitOnceAt sep t with
        | some (pre, post) => some (c :: pre, post)
        | none => none

/-- Python `s.split(sep, maxsplit=m)` for a one-character separator:
at most `m` splits are performed, empty fields are kept. -/
def pySplit (sep : Char) : Nat → List Char → List (List Char)
  | 0, s => [s]
  | m + 1, s =>
      match splitOnceAt sep s with
      | none => [s]
      | some (pre, post) => pre :: pySplit sep m post

/-- Python `" ".join(parts)`: the parts separated by single spaces. -/
def joinSpace : List (List Char) → List Char
  | [] => []
  | [x] => x
  | x :: y :: t => x ++ ' ' :: joinSpace (y :: t)

/-! ## Paths (`pathlib.PurePath` operations, as the sources use them) -/

/-- Split a character list at its last occurrence of `sep`:
`some (before, after)`, or `none` when `sep` does not occur. -/
def splitLastAt (sep : Char) : List Char → Option (List Char × List Char)
  | [] => none
  | c :: t =>
      match splitLastAt sep t with
      | some (pre, post) => some (c :: pre, post)
      | none => if c = sep then some ([], t) else none

/-- `PurePath.name`: the final path component (after the last `/`). -/
def pathName (p : String) : String :=
  match splitLastAt '/' p.data with
  | some (_, post) => ⟨post⟩
  | none => p

/-- `PurePath.parent` for the paths the sources build: everything before
the last `/` (`.` when there is no slash, `/` for a root-level file). -/
def pathParent (p : String) : String :=
  match splitLastAt '/' p.data with
  | some ([], _) => "/"
  | some (pre, _) => ⟨pre⟩
  | none => "."

/-- `PurePath.suffix`: `.ext` when the name has an interior dot
(CPython: `0 < name.rfind('.') < len(name) - 1`), else the empty string. -/
def pathSuffix (p : String) : String :=
  match splitLastAt '.' (pathName p).data with
  | some (pre, post) =>
      if pre ≠ [] ∧ post ≠ [] then ⟨'.' :: post⟩ else ""
  | none => ""

/-- `PurePath.stem`: the name with a nonempty suffix removed. -/
def pathStem (p : String) : String :=
  match splitLastAt '.' (pathName p).data with
  | some (pre, post) =>
      if pre ≠ [] ∧ post ≠ [] then ⟨pre⟩ else pathName p
  | none => pathName p

/-- `Path(dir).joinpath(component)` / `os.path.join(dir, component)` for a
relative final component, the only form the sources use. -/
def pathJoin (dir component : String) : String :=
  dir ++ "/" ++ component

/-! ## The glob pattern of `Path.rglob`

`fnmatch`-style matching of one path component, supporting `*`, literal
characters and simple `[...]` character sets (no ranges or negation, which
the sources' patterns `*.tif[f?]` and `*.ti[f*]` do not use).  Matching is
case-sensitive, as on a POSIX filesystem; the theorems that depend on case
also check the fully lower-cased variants, which covers the
case-insensitive matching a Windows filesystem would perform.

The recursion consumes at least one pattern character at every step, so
the structural fuel `pattern.length + 1` used by `globMatch` is enough for
every input; the `0` fallback is never reached. -/

def globMatchF : Nat → List Char → List Char → Bool
  | 0, _, _ => false
  | fuel + 1, pattern, name =>
      match pattern with
      | [] => name.isEmpty
      | '*' :: ps => name.tails.any fun t => globMatchF fuel ps t
      | '[' :: ps =>
          let cls := ps.takeWhile (· ≠ ']')
          let rest := (ps.dropWhile (· ≠ ']')).drop 1
          match name with
          | [] => false
          | c :: nt => cls.contains c && globMatchF fuel rest nt
      | p :: ps =>
          match name with
          | [] => false
          | c :: nt => p == c && globMatchF fuel ps nt

/-- Does the file name match the glob pattern (one path component)? -/
def globMatch (pattern name : String) : Bool :=
  globMatchF (pattern.data.length + 1) pattern.data name.data

/-! ## `Tiffinder.py` -/

namespace Tiffinder

/-- The pattern of `Path(scan_dir).rglob(\x22**/*.tif[f?]\x22)` in
`Tiffinder.scandir`, applied to the file name component (`**/` matches the
intervening directories).  The character class `[f?]` makes it match names
ending in `.tiff` or `.tif?` only. -/
def tifPattern : String := "*.tif[f?]"

/-- The search key stored by `Tiffinder.scandir` for a file stem:
`needle = abs.stem.replace(\x22_\x22, \x22 \x22)` followed by
`short = \x22 \x22.join(needle.split(\x22 \x22, maxsplit=5))`. -/
def mkShort (stem : String) : String :=
  let needle : List Char := stem.data.map fun c => if c = '_' then ' ' else c
  ⟨joinSpace (pySplit ' ' 5 needle)⟩

/-- `Tiffinder.scandir`: fold the resolved files found under the scan root
(`listing`, in walk order) into the cache, keeping those whose name
matches the rglob pattern and storing `mkShort` of the stem under the
absolute path. -/
def scandir (cache : StrMap) (listing : List String) : StrMap :=
  listing.foldl
    (fun c abs =>
      if globMatch tifPattern (pathName abs) then
        writeEntry c abs (mkShort (pathStem abs))
      else c)
    cache

/-- `Tiffinder.iscandir`: when the cache store is older than ten days
(`now - cache_mtime > 10 * 3600 * 24`), Python first runs the prune loop
`for path in list(self.cache): if not os.path.exists(path): ...`; since
`Tiffinder.py` never imports `os`, evaluating the loop body raises
`NameError` on the first iteration, so a stale nonempty cache aborts
before any pruning or rescan.  With an empty cache the loop body never
runs and each directory is scanned.  A young cache is returned unchanged.
`scan_dirs` carries one file listing per scanned directory. -/
def iscandir (cache : StrMap) (cache_mtime now : Int)
    (scan_dirs : List (List String)) : Except PyErr StrMap :=
  if now - cache_mtime > 10 * 3600 * 24 then
    match cache with
    | [] => .ok (scan_dirs.foldl scandir [])
    | _ :: _ => .error PyErr.nameError
  else .ok cache

/-- `Tiffinder.search`: `[path for path in self.cache if needle in
self.cache[path]]` — iterate the cache keys and keep those whose stored
search key contains the needle as a substring. -/
def search (cache : StrMap) (needle : String) : List String :=
  (cache.map Prod.fst).filter fun path =>
    match lookupFirst cache path with
    | some key => containsSub key.data needle.data
    | none => false

/-- `Tiffinder.search_mpx` over the identNr records of the mpx export
(each record is `(identNr, objId)`; the xml parsing is outside the core).
The source initialises `results = []`, then loops over the records, but
`return results` sits inside the record loop, so only the first record is
processed (and `None` is returned when there are no records); and
`results.extend(found)` sits inside the inner `for f in found:` loop, so
`found` is appended once per element of `found`. -/
def search_mpx (cache : StrMap) (records : List (String × String)) :
    Option (List String) :=
  match records with
  | [] => none
  | (identNr, _objId) :: _ =>
      let found := search cache identNr
      some (found.foldl (fun results _f => results ++ found) [])

/-- `filecmp.cmp(f1, f2, shallow=False)`: full content comparison; stats
both files first, so a missing file raises `FileNotFoundError`. -/
def filecmp_cmp (fs : StrMap) (f1 f2 : String) : Except PyErr Bool :=
  match lookupFirst fs f1, lookupFirst fs f2 with
  | some c1, some c2 => .ok (c1 == c2)
  | _, _ => .error PyErr.fileNotFound

/-- The `while target_fn.exists():` loop of `Tiffinder._default_policy`,
with structural fuel.  Each continuing iteration requires the current
candidate to be an existing file and probes a fresh numbered name, so
`fs.length + 2` fuel (supplied by `default_policy`) is always enough and
the `nonterm` fallback is unreachable. -/
def default_policy_loop (fs : StrMap) (source parent stem sfx : String) :
    Nat → Nat → String → Except PyErr (Option String)
  | 0, _, _ => .error PyErr.nonterm
  | fuel + 1, i, target_fn =>
      if hasPath fs target_fn then
        match filecmp_cmp fs source target_fn with
        | .error e => .error e
        | .ok true => .ok none
        | .ok false =>
            default_policy_loop fs source parent stem sfx fuel (i + 1)
              (pathJoin parent (stem ++ " (" ++ toString i ++ ")" ++ sfx))
      else .ok (some target_fn)

/-- `Tiffinder._default_policy` (the Preserve policy): start from
`target_dir/name`; on an existing identical file return `None` (skip); on
an existing different file probe numbered variants starting at `(2)`.
Note the source computes `parent = new.parent` — the parent of the
**source** — and builds every numbered variant with
`parent.joinpath(...)`, not with `target_dir`. -/
def default_policy (fs : StrMap) (source target_dir : String) :
    Except PyErr (Option String) :=
  default_policy_loop fs source (pathParent source) (pathStem source)
    (pathSuffix source) (fs.length + 2) 2
    (pathJoin target_dir (pathName source))

/-- `Tiffinder._simple_copy`: `if not target.is_file(): try: copy2 ...
except: log` — never overwrites, and a missing source is swallowed by the
bare `except` (only logged). -/
def simple_copy (fs : StrMap) (source target : String) : StrMap :=
  if hasPath fs target then fs
  else
    match lookupFirst fs source with
    | some c => writeEntry fs target c
    | none => fs

/-- `Tiffinder.cp_results`: for each result compute the Preserve-policy
target and copy unless the policy said skip.  An exception escaping
`_default_policy` (e.g. `filecmp.cmp` on a vanished source) is not caught
and aborts the remaining items; the returned pair is the filesystem at
that point together with the escaped exception, if any. -/
def cp_results (fs : StrMap) (results : List String) (target_dir : String) :
    StrMap × Option PyErr :=
  match results with
  | [] => (fs, none)
  | fn :: rest =>
      match default_policy fs fn target_dir with
      | .error e => (fs, some e)
      | .ok none => cp_results fs rest target_dir
      | .ok (some target_fn) =>
          cp_results (simple_copy fs fn target_fn) rest target_dir

end Tiffinder

/-! ## `Tif_finder.py` (the older near-duplicate) -/

namespace Tif_finder

/-- The pattern of `Path(scan_dir).rglob(\x22**/*.ti[f*]\x22)` in
`Tif_finder.scandir`: the class `[f*]` makes it match names ending in
`.tif` or `.ti*` only — never `.tiff`. -/
def tifPattern : String := "*.ti[f*]"

/-- `Tif_finder.scandir`: like `Tiffinder.scandir` but with the `*.ti[f*]`
pattern and the untruncated key `abs.stem.replace(\x22_\x22, \x22 \x22)`. -/
def scandir (cache : StrMap) (listing : List String) : StrMap :=
  listing.foldl
    (fun c abs =>
      if globMatch tifPattern (pathName abs) then
        writeEntry c abs
          ⟨(pathStem abs).data.map fun ch => if ch = '_' then ' ' else ch⟩
      else c)
    cache

end Tif_finder

/-! ## `Tifmpx.py` -/

namespace TifMpx

/-- The target filename computed by `TifMpx._copy_fn`:
`os.path.join(target_dir, mulId + '.' + dateiname + '.tif')`. -/
def target_fn (target_dir mulId dateiname : String) : String :=
  pathJoin target_dir (mulId ++ "." ++ dateiname ++ ".tif")

/-- `TifMpx._cache_by_name`: the first cache path whose stored short name
equals `name` (`ValueError` — here `none` — when there is none; the
caller `search_mpx` only invokes `_copy_fn` after checking
`dateiname in self.cache.values()`). -/
def cache_by_name : StrMap → String → Option String
  | [], _ => none
  | (path, short) :: t, name =>
      if short = name then some path else cache_by_name t name

/-- `TifMpx._copy_fn`: compute the composite target name, resolve the
source through the cache (`ValueError` when absent), and copy only when
the target does not already exist; a failing `shutil.copy` (missing
source) is swallowed by the bare `except` and only logged. -/
def copy_fn (fs cache : StrMap) (target_dir mulId dateiname : String) :
    Except PyErr StrMap :=
  let target := target_fn target_dir mulId dateiname
  match cache_by_name cache dateiname with
  | none => .error PyErr.valueError
  | some source =>
      .ok
        (if hasPath fs target then fs
         else
           match lookupFirst fs source with
           | some c => writeEntry fs target c
           | none => fs)

end TifMpx

/-- The files of `fs` that live directly in directory `d` — the
destination-directory contents that the idempotence claim compares. -/
def destFiles (fs : StrMap) (d : String) : StrMap :=
  fs.filter fun e => pathParent e.1 = d

/-! ## Helper lemmas -/

theorem lookupFirst_writeEntry_self (fs : StrMap) (p c : String) :
    lookupFirst (writeEntry fs p c) p = some c := by
  induction fs with
  | nil => simp [writeEntry, lookupFirst]
  | cons hd t ih =>
      obtain ⟨k, v⟩ := hd
      by_cases h : k = p
      · simp [writeEntry, lookupFirst, h]
      · simp [writeEntry, lookupFirst, h, ih]

theorem hasPath_writeEntry_self (fs : StrMap) (p c : String) :
    hasPath (writeEntry fs p c) p = true := by
  simp [hasPath, lookupFirst_writeEntry_self]

theorem lookupFirst_some_mem_keys {fs : StrMap} {p v : String}
    (h : lookupFirst fs p = some v) : p ∈ fs.map Prod.fst := by
  induction fs with
  | nil => simp [lookupFirst] at h
  | cons hd t ih =>
      obtain ⟨k, w⟩ := hd
      by_cases hk : k = p
      · subst hk; simp
      · simp only [lookupFirst, if_neg hk] at h
        simpa using Or.inr (ih h)

theorem mem_keys_lookupFirst_isSome {fs : StrMap} {p : String}
    (h : p ∈ fs.map Prod.fst) : ∃ v, lookupFirst fs p = some v := by
  induction fs with
  | nil => simp at h
  | cons hd t ih =>
      obtain ⟨k, w⟩ := hd
      by_cases hk : k = p
      · exact ⟨w, by simp [lookupFirst, hk]⟩
      · simp only [List.map_cons, List.mem_cons] at h
        rcases h with h | h
        · exact absurd h.symm hk
        · obtain ⟨v, hv⟩ := ih h
          exact ⟨v, by simp [lookupFirst, hk, hv]⟩

theorem leadsWith_iff (n h : List Char) :
    leadsWith n h = true ↔ ∃ t, h = n ++ t := by
  induction n generalizing h with
  | nil => simp [leadsWith]
  | cons a as ih =>
      cases h with
      | nil => simp [leadsWith]
      | cons b bs =>
          simp only [leadsWith, Bool.and_eq_true, beq_iff_eq, ih,
            List.cons_append, List.cons.injEq]
          constructor
          · rintro ⟨rfl, t, rfl⟩; exact ⟨t, rfl, rfl⟩
          · rintro ⟨t, rfl, rfl⟩; exact ⟨rfl, t, rfl⟩

theorem containsSub_iff (h n : List Char) :
    containsSub h n = true ↔ ∃ pre post, h = pre ++ (n ++ post) := by
  induction h with
  | nil =>
      simp only [containsSub, Bool.or_false, leadsWith_iff]
      constructor
      · rintro ⟨t, ht⟩; exact ⟨[], t, ht⟩
      · rintro ⟨pre, post, hp⟩
        rcases List.append_eq_nil.mp hp.symm with ⟨rfl, h2⟩
        exact ⟨post, hp.symm ▸ rfl⟩
  | cons c t ih =>
      simp only [containsSub, Bool.or_eq_true, leadsWith_iff, ih]
      constructor
      · rintro (⟨s, hs⟩ | ⟨pre, post, hp⟩)
        · exact ⟨[], s, by simpa using hs⟩
        · exact ⟨c :: pre, post, by simp [hp]⟩
      · rintro ⟨pre, post, hp⟩
        cases pre with
        | nil => exact Or.inl ⟨post, by simpa using hp⟩
        | cons p ps =>
            simp only [List.cons_append, List.cons.injEq] at hp
            exact Or.inr ⟨ps, post, hp.2⟩

theorem containsSub_nil_needle (h : List Char) : containsSub h [] = true := by
  cases h <;> simp [containsSub, leadsWith]

theorem splitOnceAt_eq (sep : Char) (s pre post : List Char)
    (h : splitOnceAt sep s = some (pre, post)) : s = pre ++ sep :: post := by
  induction s generalizing pre with
  | nil => simp [splitOnceAt] at h
  | cons c t ih =>
      by_cases hc : c = sep
      · simp only [splitOnceAt, if_pos hc, Option.some.injEq,
          Prod.mk.injEq] at h
        obtain ⟨rfl, rfl⟩ := h
        simp [hc]
      · simp only [splitOnceAt, if_neg hc] at h
        cases hs : splitOnceAt sep t with
        | none => simp [hs] at h
        | some pp =>
            obtain ⟨p1, p2⟩ := pp
            simp only [hs, Option.some.injEq, Prod.mk.injEq] at h
            obtain ⟨h1, rfl⟩ := h
            subst h1
            simp [ih p1 hs]

theorem pySplit_ne_nil (sep : Char) (m : Nat) (s : List Char) :
    pySplit sep m s ≠ [] := by
  cases m with
  | zero => simp [pySplit]
  | succ m =>
      cases hs : splitOnceAt sep s with
      | none => simp [pySplit, hs]
      | some pp => obtain ⟨pre, post⟩ := pp; simp [pySplit, hs]

theorem joinSpace_cons_of_ne_nil (x : List Char) {rest : List (List Char)}
    (h : rest ≠ []) : joinSpace (x :: rest) = x ++ ' ' :: joinSpace rest := by
  cases rest with
  | nil => exact absurd rfl h
  | cons y t => rfl

/-- Rejoining with the separator undoes `pySplit` entirely: the
`maxsplit` parameter discards nothing. -/
theorem joinSpace_pySplit (m : Nat) (s : List Char) :
    joinSpace (pySplit ' ' m s) = s := by
  induction m generalizing s with
  | zero => simp [pySplit, joinSpace]
  | succ m ih =>
      cases hs : splitOnceAt ' ' s with
      | none => simp [pySplit, hs, joinSpace]
      | some pp =>
          obtain ⟨pre, post⟩ := pp
          have hdec := splitOnceAt_eq ' ' s pre post hs
          rw [pySplit, hs,
            joinSpace_cons_of_ne_nil pre (pySplit_ne_nil ' ' m post),
            ih post, ← hdec]

/-! ## Claims -/

/-- Claim C1 (code bug): under the Preserve (default) policy, when a
different file with the source's base name exists at the destination, the
numbered variant is supposed to live in the destination directory
(`destDir/stem (2).ext`, as `_default_policy`'s own docstring says), but
the code joins the variant onto `parent = new.parent`, the parent of the
**source**.  With `/dst/foo.tif` holding different content, copying
`/src/foo.tif` resolves to `/src/foo (2).tif`, not `/dst/foo (2).tif`.
The empty-destination and byte-identical cases of Scenario B do behave as
claimed. -/
theorem C1_default_policy_numbered_variant_in_source_dir :
    Tiffinder.default_policy [("/src/foo.tif", "B")] "/src/foo.tif" "/dst"
        = .ok (some "/dst/foo.tif")
  ∧ Tiffinder.default_policy [("/dst/foo.tif", "B"), ("/src/foo.tif", "B")]
        "/src/foo.tif" "/dst" = .ok none
  ∧ Tiffinder.default_policy [("/dst/foo.tif", "A"), ("/src/foo.tif", "B")]
        "/src/foo.tif" "/dst" = .ok (some "/src/foo (2).tif")
  ∧ ("/src/foo (2).tif" : String) ≠ "/dst/foo (2).tif" := by
  refine ⟨rfl, rfl, rfl, by decide⟩

/-- Claim C2 (code bug): `cp_results` is not idempotent on the
destination directory.  Because `_default_policy` writes numbered
variants into the source's parent directory, the first run can create a
file (`/a/x (2).tif`) that is itself listed in the results; the second
run then finds that source existing and copies it to `/dst/x (2).tif`,
so the destination gains a file the first run did not produce. -/
theorem C2_cp_results_not_idempotent :
    let fs0 : StrMap := [("/dst/x.tif", "Y"), ("/a/x.tif", "X")]
    let res := ["/a/x (2).tif", "/a/x.tif"]
    let run1 := (Tiffinder.cp_results fs0 res "/dst").1
    let run2 := (Tiffinder.cp_results run1 res "/dst").1
    destFiles run1 "/dst" = [("/dst/x.tif", "Y")]
  ∧ destFiles run2 "/dst" = [("/dst/x.tif", "Y"), ("/dst/x (2).tif", "X")]
  ∧ destFiles run2 "/dst" ≠ destFiles run1 "/dst" := by
  refine ⟨rfl, rfl, by decide⟩

/-- Claim C3 (code bug): `Tiffinder.scandir`'s rglob pattern is
`*.tif[f?]`, whose character class makes it match only names ending in
`.tiff` or `.tif?` — a plain `.tif` file is never indexed, on any
platform (the lower-cased probes cover Windows' case-insensitive
matching).  Scenario A's directory with `A 110.tif` and `a 110.TIF`
therefore yields an empty index and an empty search result, not two
entries; the older `Tif_finder.scandir` (pattern `*.ti[f*]`) indexes only
the lower-case `.tif` variant. -/
theorem C3_scandir_pattern_never_matches_dot_tif :
    Tiffinder.scandir [] ["/scan/A 110.tif", "/scan/a 110.TIF"] = []
  ∧ globMatch Tiffinder.tifPattern "A 110.tif" = false
  ∧ globMatch Tiffinder.tifPattern "a 110.tif" = false
  ∧ globMatch Tiffinder.tifPattern "a 110.tiff" = true
  ∧ Tiffinder.search
        (Tiffinder.scandir [] ["/scan/A 110.tif", "/scan/a 110.TIF"])
        "A 110" = []
  ∧ Tif_finder.scandir [] ["/scan/A 110.tif", "/scan/a 110.TIF"]
        = [("/scan/A 110.tif", "A 110")] := by
  refine ⟨rfl, rfl, rfl, rfl, rfl, rfl⟩

/-- Claim C5 (code bug): `iscandir` gates on
`now - cache_mtime > 10 * 3600 * 24` and leaves a young cache unchanged,
but `Tiffinder.py` never imports `os`, so when the cache is stale and
nonempty the prune loop's `os.path.exists` raises `NameError` on its
first iteration — no entry is pruned and no rescan happens.  Only the
degenerate stale-but-empty cache reaches the rescan. -/
theorem C5_iscandir_raises_NameError_when_stale :
    Tiffinder.iscandir [("/x/p.tiff", "p")] 0 864001 [[]]
        = .error PyErr.nameError
  ∧ Tiffinder.iscandir [("/x/p.tiff", "p")] 0 864000 [["/y/q.tiff"]]
        = .ok [("/x/p.tiff", "p")]
  ∧ Tiffinder.iscandir [] 0 864001 [["/y/q.tiff"]]
        = .ok [("/y/q.tiff", "q")] := by
  refine ⟨rfl, rfl, rfl⟩

/-- Claim C6 (code bug): `search_mpx` should walk every identNr record
and concatenate the matches in record order, but its `return results`
sits inside the record loop, so only the first record is ever processed,
and `results.extend(found)` sits inside the inner `for f in found:` loop,
so the first record's matches are appended once per match.  With records
`a`, `b` over a cache holding two `a`-matches and one `b`-match, the code
returns the first record's matches squared instead of the claimed
concatenation. -/
theorem C6_search_mpx_first_record_squared :
    Tiffinder.search_mpx
        [("/t/p1.tif", "a1"), ("/t/p2.tif", "a2"), ("/t/p3.tif", "b1")]
        [("a", "101"), ("b", "102")]
      = some ["/t/p1.tif", "/t/p2.tif", "/t/p1.tif", "/t/p2.tif"]
  ∧ Tiffinder.search_mpx
        [("/t/p1.tif", "a1"), ("/t/p2.tif", "a2"), ("/t/p3.tif", "b1")]
        [("a", "101"), ("b", "102")]
      ≠ some
        (([("a", "101"), ("b", "102")].map fun r =>
            Tiffinder.search
              [("/t/p1.tif", "a1"), ("/t/p2.tif", "a2"), ("/t/p3.tif", "b1")]
              r.1).flatten) := by
  refine ⟨rfl, by decide⟩

/-- Claim C8 (code bug): a batch is supposed to run to completion with
per-item failures only, but when a source has vanished while a file with
its base name exists at the destination, `_default_policy` reaches
`filecmp.cmp` on the missing source, which raises `FileNotFoundError`
outside any handler: `cp_results` aborts and the remaining items (here
`/b/ok.tif`, which would have been copied to `/dst/ok.tif`) are never
processed. -/
theorem C8_cp_results_aborts_on_vanished_source :
    Tiffinder.cp_results [("/dst/gone.tif", "Z"), ("/b/ok.tif", "W")]
        ["/a/gone.tif", "/b/ok.tif"] "/dst"
      = ([("/dst/gone.tif", "Z"), ("/b/ok.tif", "W")],
          some PyErr.fileNotFound)
  ∧ lookupFirst
        (Tiffinder.cp_results [("/dst/gone.tif", "Z"), ("/b/ok.tif", "W")]
          ["/a/gone.tif", "/b/ok.tif"] "/dst").1 "/dst/ok.tif" = none := by
  refine ⟨rfl, rfl⟩

/-- Claim C9 (code bug): the scan comment says "only 5 elements, discard
rest", but `" ".join(needle.split(" ", maxsplit=5))` discards nothing —
split-then-join with the same separator is the identity (see
`joinSpace_pySplit`) — so the stored search key is the full
underscore-to-space stem, not a truncation to the first K tokens. -/
theorem C9_search_key_is_never_truncated :
    Tiffinder.scandir [] ["/scan/a_b_c_d_e_f_g.tiff"]
        = [("/scan/a_b_c_d_e_f_g.tiff", "a b c d e f g")]
  ∧ Tiffinder.mkShort "a_b_c_d_e_f_g" = "a b c d e f g"
  ∧ ("a b c d e f g" : String) ≠ "a b c d e f" := by
  refine ⟨rfl, rfl, by decide⟩

/-- Claim C4 (confirmed): for every cache and needle, `search` returns
exactly the cached paths whose stored search key contains the needle as a
case-sensitive substring; the result order is a sub-sequence of the
cache's iteration order; and the empty needle matches every entry. -/
theorem C4_search_returns_substring_matches (cache : StrMap) (n : String) :
    (∀ p, p ∈ Tiffinder.search cache n ↔
        ∃ k, lookupFirst cache p = some k ∧
          ∃ pre post, k.data = pre ++ (n.data ++ post))
  ∧ List.Sublist (Tiffinder.search cache n) (cache.map Prod.fst)
  ∧ Tiffinder.search cache "" = cache.map Prod.fst := by
  refine ⟨?_, ?_, ?_⟩
  · intro p
    constructor
    · intro hp
      rw [Tiffinder.search, List.mem_filter] at hp
      obtain ⟨hmem, hpred⟩ := hp
      obtain ⟨v, hv⟩ := mem_keys_lookupFirst_isSome hmem
      rw [hv] at hpred
      exact ⟨v, hv, (containsSub_iff _ _).mp hpred⟩
    · rintro ⟨k, hk, hsub⟩
      rw [Tiffinder.search, List.mem_filter]
      refine ⟨lookupFirst_some_mem_keys hk, ?_⟩
      rw [hk]
      exact (containsSub_iff _ _).mpr hsub
  · exact List.filter_sublist _
  · rw [Tiffinder.search]
    apply List.filter_eq_self.mpr
    intro p hp
    obtain ⟨v, hv⟩ := mem_keys_lookupFirst_isSome hp
    rw [hv]
    exact containsSub_nil_needle v.data

/-- Claim C7, as stated, is false: `TifMpx._copy_fn` builds the target
name from the record's `mulId` and `dateiname`
(`mulId + '.' + dateiname + '.tif'`); no content hash is computed
anywhere in `Tifmpx.py`.  At `mulId = "1"`, `dateiname = "x"` the
computed name is `/dst/1.x.tif`, whose middle component cannot be an MD5
hex digest: any name of the claimed shape has length `11 + 32`, while the
actual name has length 12. -/
theorem C7_composite_name_is_not_an_md5_counterexample :
    TifMpx.target_fn "/dst" "1" "x" = "/dst/1.x.tif"
  ∧ ¬ ∃ digest : String, digest.length = 32 ∧
      TifMpx.target_fn "/dst" "1" "x"
        = "/dst/" ++ ("1." ++ digest ++ "." ++ "tif") := by
  refine ⟨rfl, ?_⟩
  rintro ⟨d, hlen, heq⟩
  have hl := congrArg String.length heq
  simp only [String.length_append] at hl
  have e1 : ("/dst/1.x.tif" : String).length = 12 := rfl
  have e2 : ("/dst/" : String).length = 5 := rfl
  have e3 : ("1." : String).length = 2 := rfl
  have e4 : ("." : String).length = 1 := rfl
  have e5 : ("tif" : String).length = 3 := rfl
  rw [show TifMpx.target_fn "/dst" "1" "x" = "/dst/1.x.tif" from rfl,
    e1, e2, e3, e4, e5] at hl
  omega

/-- Claim C7 amended (proved): under the composite naming of
`TifMpx._copy_fn` with secondary id `mulId`, the computed target filename
is `destDir/mulId.dateiname.tif` — the record's original file name, with
a literal `tif` extension, not a content digest; if a file with that
exact computed name already exists the copy is skipped without any
content comparison (the result is the unchanged filesystem, whatever the
contents are); and re-running with the same record and cache produces the
same filename and copies nothing (the second run returns the first run's
filesystem unchanged). -/
theorem C7_amended_composite_policy (fs cache : StrMap)
    (dst mulId datei src : String)
    (h : TifMpx.cache_by_name cache datei = some src) :
    TifMpx.target_fn dst mulId datei
        = dst ++ "/" ++ (mulId ++ "." ++ datei ++ ".tif")
  ∧ (hasPath fs (TifMpx.target_fn dst mulId datei) = true →
      TifMpx.copy_fn fs cache dst mulId datei = .ok fs)
  ∧ ∃ fs1, TifMpx.copy_fn fs cache dst mulId datei = .ok fs1 ∧
      TifMpx.copy_fn fs1 cache dst mulId datei = .ok fs1 := by
  refine ⟨rfl, ?_, ?_⟩
  · intro hex
    simp [TifMpx.copy_fn, h, hex]
  · by_cases hex : hasPath fs (TifMpx.target_fn dst mulId datei) = true
    · exact ⟨fs, by simp [TifMpx.copy_fn, h, hex],
        by simp [TifMpx.copy_fn, h, hex]⟩
    · rw [Bool.not_eq_true] at hex
      cases hsrc : lookupFirst fs src with
      | none =>
          exact ⟨fs, by simp [TifMpx.copy_fn, h, hex, hsrc],
            by simp [TifMpx.copy_fn, h, hex, hsrc]⟩
      | some c =>
          refine ⟨writeEntry fs (TifMpx.target_fn dst mulId datei) c,
            by simp [TifMpx.copy_fn, h, hex, hsrc], ?_⟩
          simp [TifMpx.copy_fn, h, hasPath_writeEntry_self]

/-- Witness for `C7_amended_composite_policy` at a concrete input: with
`/dst/1.x.tif` already present, the copy is skipped and the filesystem is
returned unchanged. -/
theorem C7_amended_composite_policy_witness :
    TifMpx.copy_fn [("/dst/1.x.tif", "c")] [("/s/x.tif", "x")]
        "/dst" "1" "x" = .ok [("/dst/1.x.tif", "c")] :=
  (C7_amended_composite_policy [("/dst/1.x.tif", "c")] [("/s/x.tif", "x")]
      "/dst" "1" "x" "/s/x.tif" rfl).2.1 rfl

/-- Claim C10 (confirmed): no copy ever overwrites an existing
destination file.  `Tiffinder._simple_copy` is guarded by
`if not target.is_file()` and `TifMpx._copy_fn` by
`if not os.path.exists(target_fn)`, so whenever the target path already
holds a file, both return the filesystem unchanged — in particular the
existing file's content is untouched. -/
theorem C10_copies_never_overwrite (fs : StrMap) (s t : String)
    (h : hasPath fs t = true) :
    Tiffinder.simple_copy fs s t = fs
  ∧ ∀ cache dst mulId datei src,
      TifMpx.cache_by_name cache datei = some src →
      TifMpx.target_fn dst mulId datei = t →
      TifMpx.copy_fn fs cache dst mulId datei = .ok fs := by
  refine ⟨by simp [Tiffinder.simple_copy, h], ?_⟩
  intro cache dst mulId datei src hc ht
  simp [TifMpx.copy_fn, hc, ht, h]

/-- Witness for `C10_copies_never_overwrite` at a concrete input: with
`/dst/1.x.tif` holding `old`, neither copying routine changes it. -/
theorem C10_copies_never_overwrite_witness :
    Tiffinder.simple_copy [("/dst/1.x.tif", "old")] "/s/x.tif"
        "/dst/1.x.tif" = [("/dst/1.x.tif", "old")]
  ∧ TifMpx.copy_fn [("/dst/1.x.tif", "old")] [("/s/x.tif", "x")]
        "/dst" "1" "x" = .ok [("/dst/1.x.tif", "old")] := by
  have h := C10_copies_never_overwrite [("/dst/1.x.tif", "old")]
    "/s/x.tif" "/dst/1.x.tif" rfl
  exact ⟨h.1, h.2 [("/s/x.tif", "x")] "/dst" "1" "x" "/s/x.tif" rfl rfl⟩
